import Mathlib

/-!
Verification development for the background-orchestration core of the paisa
repository: the durable task-execution ledger (`internal/model/task_execution`),
the scheduler's per-run bookkeeping (`internal/background/background.go`), and
the Kite credential lifecycle manager (`internal/background/kite`).

The Go code is shallowly embedded: the database is explicit pure state
(a list of rows), `time.Time` values are calendar-day/second pairs in the
process's single local time zone (both the stored timestamps and `time.Now()`
are produced by the same process, so one zone suffices), network calls are
resolved by an explicit environment of oracles, and every fallible operation
returns an `Except` or pairs its result with the state it produced.
-/

set_option autoImplicit false

namespace Paisa

/-! ## Go time values

`time.Time` restricted to what the ledger uses: `day` is the calendar-day
index (days since the zero time's day), `sec` the second within the day.
`time.Date(y, m, d, 0, 0, 0, 0, loc)` truncates to midnight, and
`Before` compares the underlying instants. -/

structure GoTime where
  day : Int
  sec : Nat
  deriving Repr, DecidableEq

/-- The zero `time.Time` (what `IsZero` recognises and what an unset
`last_successful_run` column holds). -/
def goZeroTime : GoTime := ⟨0, 0⟩

/-- The instant of a `GoTime`, in seconds, used by `Before`. -/
def GoTime.instant (t : GoTime) : Int := t.day * 86400 + t.sec

/-- `t.Before(u)` compares instants. -/
def GoTime.before (t u : GoTime) : Bool := t.instant < u.instant

/-- `time.Date(t.Year(), t.Month(), t.Day(), 0, 0, 0, 0, t.Location())`:
truncation to midnight of the same calendar day. -/
def GoTime.midnight (t : GoTime) : GoTime := ⟨t.day, 0⟩

/-- `t.IsZero()`. -/
def GoTime.isZero (t : GoTime) : Bool := t == goZeroTime

/-! ## Go errors and the locked-database retry wrapper
(`internal/model/task_execution/task_execution.go`) -/

/-- A Go `error` value, identified by its message string, as
`isDatabaseLockedError` works on `err.Error()`. -/
structure GoError where
  msg : String
  deriving Repr, DecidableEq

/-- `gorm.ErrRecordNotFound`. -/
def gormErrRecordNotFound : GoError := ⟨"record not found"⟩

/-- Whether `pat` occurs as a contiguous run inside `s`. -/
def listContainsSubstr (pat : List Char) : List Char → Bool
  | [] => pat.isEmpty
  | c :: rest => pat.isPrefixOf (c :: rest) || listContainsSubstr pat rest

/-- `strings.Contains s pat`. -/
def strContains (s pat : String) : Bool := listContainsSubstr pat.toList s.toList

/-- `isDatabaseLockedError`: nil is not a locked error; otherwise the message
must mention one of the three locked/busy conditions. -/
def isDatabaseLockedError (err : Option GoError) : Bool :=
  match err with
  | none => false
  | some e =>
      strContains e.msg "database is locked" ||
      strContains e.msg "database table is locked" ||
      strContains e.msg "busy"

/-- What a run of `retryOnLockedDatabase` produced: the error returned to the
caller, how many times the operation was attempted, and the sleeps (in
milliseconds) performed between attempts. -/
structure RetryResult where
  err : Option GoError
  attempts : Nat
  sleeps : List Nat
  deriving Repr, DecidableEq

/-- The loop body of `retryOnLockedDatabase`. `op i` is the error (or nil)
the operation returns on its `i`-th invocation; `fuel` is the number of loop
iterations left (`maxRetries - i` in the Go code, so `fuel = 1` means this is
the last iteration and a locked error is no longer retried), `backoff` the
current sleep duration, `i` the attempts made so far, `sleeps` the sleeps
performed so far. Falling off the loop returns nil, as in the source
(that path is unreachable from `retryOnLockedDatabase`). -/
def retryGo (op : Nat → Option GoError) :
    Nat → Nat → Nat → List Nat → RetryResult
  | 0, _, i, sleeps => ⟨none, i, sleeps⟩
  | fuel + 1, backoff, i, sleeps =>
      match op i with
      | none => ⟨none, i + 1, sleeps⟩
      | some err =>
          if isDatabaseLockedError (some err) && fuel != 0 then
            retryGo op fuel (backoff * 2) (i + 1) (sleeps ++ [backoff])
          else
            ⟨some err, i + 1, sleeps⟩

/-- `retryOnLockedDatabase`: `maxRetries = 5`, initial backoff 10ms. -/
def retryOnLockedDatabase (op : Nat → Option GoError) : RetryResult :=
  retryGo op 5 10 0 []

/-! ## The task-execution ledger -/

/-- A `TaskExecution` row. The auto-increment `ID` is the row's position in
the list; `gorm` column defaults give a created row the zero value for any
field not set explicitly. -/
structure TaskExecution where
  taskName : String
  lastRun : GoTime
  lastSuccessfulRun : GoTime
  success : Bool
  createdAt : GoTime
  updatedAt : GoTime
  deriving Repr, DecidableEq

/-- The ledger table: its rows in insertion order. -/
abbrev LedgerDB := List TaskExecution

/-- `db.Where("task_name = ?", taskName).First(&execution)`: the first row
with the given name, if any. -/
def firstTaskExecution (db : LedgerDB) (taskName : String) : Option TaskExecution :=
  db.find? (fun ex => ex.taskName == taskName)

/-- The error the `First` query inside the ledger getters produces on the pure
state: nil when the row exists, `gorm.ErrRecordNotFound` otherwise. -/
def ledgerQueryErr (db : LedgerDB) (taskName : String) : Option GoError :=
  match firstTaskExecution db taskName with
  | some _ => none
  | none => some gormErrRecordNotFound

/-- `GetLastRun`: the `First` query wrapped in `retryOnLockedDatabase`;
a record-not-found error is absorbed into the zero time. -/
def GetLastRun (db : LedgerDB) (taskName : String) : Except GoError GoTime :=
  match (retryOnLockedDatabase (fun _ => ledgerQueryErr db taskName)).err with
  | some e => if e == gormErrRecordNotFound then .ok goZeroTime else .error e
  | none =>
      match firstTaskExecution db taskName with
      | some ex => .ok ex.lastRun
      | none => .ok goZeroTime

/-- `GetLastSuccessfulRun`: same query, returning `last_successful_run`. -/
def GetLastSuccessfulRun (db : LedgerDB) (taskName : String) : Except GoError GoTime :=
  match (retryOnLockedDatabase (fun _ => ledgerQueryErr db taskName)).err with
  | some e => if e == gormErrRecordNotFound then .ok goZeroTime else .error e
  | none =>
      match firstTaskExecution db taskName with
      | some ex => .ok ex.lastSuccessfulRun
      | none => .ok goZeroTime

/-- `tx.Save(&execution)` after `First`: update the first row with the given
name in place, leaving every other row untouched. -/
def updateFirstTaskExecution (db : LedgerDB) (taskName : String)
    (f : TaskExecution → TaskExecution) : LedgerDB :=
  match db with
  | [] => []
  | ex :: rest =>
      if ex.taskName == taskName then f ex :: rest
      else ex :: updateFirstTaskExecution rest taskName f

/-- The transaction body of `UpdateLastRun`: read-current, then create a row
with `last_run = now`, `success = false` (other columns zero), or update the
existing row's `last_run`, `success`, `updated_at`. -/
def updateLastRunTxn (db : LedgerDB) (taskName : String) (now : GoTime) : LedgerDB :=
  match firstTaskExecution db taskName with
  | none =>
      db ++ [{ taskName := taskName, lastRun := now, lastSuccessfulRun := goZeroTime,
               success := false, createdAt := now, updatedAt := now }]
  | some _ =>
      updateFirstTaskExecution db taskName
        (fun ex => { ex with lastRun := now, success := false, updatedAt := now })

/-- `UpdateLastRun`: the transactional upsert wrapped in
`retryOnLockedDatabase`. On the pure state the transaction itself cannot
fail, so the wrapped operation reports nil. -/
def UpdateLastRun (db : LedgerDB) (taskName : String) (now : GoTime) :
    Except GoError LedgerDB :=
  match (retryOnLockedDatabase (fun _ => none)).err with
  | some e => .error e
  | none => .ok (updateLastRunTxn db taskName now)

/-- The transaction body of `UpdateLastSuccessfulRun`: create a row with
`last_run = last_successful_run = now`, `success = true`, or update those
fields on the existing row. -/
def updateLastSuccessfulRunTxn (db : LedgerDB) (taskName : String) (now : GoTime) : LedgerDB :=
  match firstTaskExecution db taskName with
  | none =>
      db ++ [{ taskName := taskName, lastRun := now, lastSuccessfulRun := now,
               success := true, createdAt := now, updatedAt := now }]
  | some _ =>
      updateFirstTaskExecution db taskName
        (fun ex => { ex with lastRun := now, lastSuccessfulRun := now,
                             success := true, updatedAt := now })

/-- `UpdateLastSuccessfulRun`, wrapped like `UpdateLastRun`. -/
def UpdateLastSuccessfulRun (db : LedgerDB) (taskName : String) (now : GoTime) :
    Except GoError LedgerDB :=
  match (retryOnLockedDatabase (fun _ => none)).err with
  | some e => .error e
  | none => .ok (updateLastSuccessfulRunTxn db taskName now)

/-- `ShouldRunToday`: zero last-successful-run means run; otherwise compare
the midnight truncations of the stored time and of `now` with `Before`. -/
def ShouldRunToday (db : LedgerDB) (taskName : String) (now : GoTime) :
    Except GoError Bool :=
  match GetLastSuccessfulRun db taskName with
  | .error e => .error e
  | .ok lastSuccessfulRun =>
      if lastSuccessfulRun.isZero then .ok true
      else
        let lastRunDate := lastSuccessfulRun.midnight
        let todayDate := now.midnight
        .ok (lastRunDate.before todayDate)

/-- Modelled from the claim wording, for comparison with `ShouldRunToday`:
true exactly when no successful run is recorded for the task (row absent, or
stored `last_successful_run` is the zero time) or the stored run's local
calendar date strictly precedes today's local calendar date. -/
def claimShouldRunToday (db : LedgerDB) (taskName : String) (now : GoTime) : Bool :=
  match firstTaskExecution db taskName with
  | none => true
  | some ex =>
      ex.lastSuccessfulRun == goZeroTime || decide (ex.lastSuccessfulRun.day < now.day)

/-! ## Scheduler task-execution bodies (`internal/background/background.go`)

One execution of a task — a cron fire (the closure registered by
`registerTask`) or a startup catch-up goroutine (`runStartupTasks`) — is a
straight-line sequence over the ledger. We record the ledger calls and the
body run as an event trace to state the ordering claim. `bodyOk` is whether
`task.Run` returned nil; a failing `UpdateLastRun` is only logged and the
body still runs. -/

inductive SchedEvent where
  | updateLastRun (task : String)
  | runBody (task : String) (ok : Bool)
  | updateLastSuccessfulRun (task : String)
  deriving Repr, DecidableEq

/-- The closure `registerTask` hands to `cron.AddFunc`: `UpdateLastRun`
(error logged), then `task.Run`, then — only on a nil body error —
`UpdateLastSuccessfulRun` (error logged). `tStart`/`tDone` are the wall-clock
times the two ledger writes read from `time.Now()`. -/
def registerTaskRun (db : LedgerDB) (task : String) (tStart : GoTime)
    (bodyOk : Bool) (tDone : GoTime) : LedgerDB × List SchedEvent :=
  let afterFirst :=
    match UpdateLastRun db task tStart with
    | .ok db1 => db1
    | .error _ => db
  let evs := [SchedEvent.updateLastRun task, SchedEvent.runBody task bodyOk]
  if bodyOk then
    match UpdateLastSuccessfulRun afterFirst task tDone with
    | .ok db2 => (db2, evs ++ [SchedEvent.updateLastSuccessfulRun task])
    | .error _ => (afterFirst, evs ++ [SchedEvent.updateLastSuccessfulRun task])
  else
    (afterFirst, evs)

/-- The goroutine body `runStartupTasks` launches for a startup-eligible task
that `ShouldRunToday` approved: the same `UpdateLastRun` / body /
conditional `UpdateLastSuccessfulRun` sequence. -/
def startupTaskRun (db : LedgerDB) (task : String) (tStart : GoTime)
    (bodyOk : Bool) (tDone : GoTime) : LedgerDB × List SchedEvent :=
  let afterFirst :=
    match UpdateLastRun db task tStart with
    | .ok db1 => db1
    | .error _ => db
  let evs := [SchedEvent.updateLastRun task, SchedEvent.runBody task bodyOk]
  if bodyOk then
    match UpdateLastSuccessfulRun afterFirst task tDone with
    | .ok db2 => (db2, evs ++ [SchedEvent.updateLastSuccessfulRun task])
    | .error _ => (afterFirst, evs ++ [SchedEvent.updateLastSuccessfulRun task])
  else
    (afterFirst, evs)

end Paisa

namespace Paisa.Kite

open Paisa

/-! ## Kite credential lifecycle (`internal/background/kite`)

Network calls are resolved by an environment of oracles, indexed by how many
calls of that kind the current `GetValidAccessToken` invocation has already
made. Every function threads a `TMState` carrying the `kite_auth` table and
the trace of externally visible steps. -/

/-- A `kite_auth` row (`internal/model/kite_auth.go`). -/
structure KiteAuth where
  apiKey : String
  requestToken : String
  accessToken : String
  deriving Repr, DecidableEq

abbrev AuthDB := List KiteAuth

/-- `model.GetAuthByAPIKey`: first row for the key; a missing row is absorbed
into `nil, nil`. -/
def GetAuthByAPIKey (db : AuthDB) (apiKey : String) : Option KiteAuth :=
  db.find? (fun a => a.apiKey == apiKey)

/-- `db.Save` of the row `First` found: update the first row for the key. -/
def updateFirstAuth (db : AuthDB) (apiKey : String) (f : KiteAuth → KiteAuth) : AuthDB :=
  match db with
  | [] => []
  | a :: rest =>
      if a.apiKey == apiKey then f a :: rest
      else a :: updateFirstAuth rest apiKey f

/-- `model.StoreRequestToken`: upsert the request token for the key (a
created row has no access token yet). -/
def StoreRequestToken (db : AuthDB) (apiKey requestToken : String) : AuthDB :=
  match GetAuthByAPIKey db apiKey with
  | none => db ++ [{ apiKey := apiKey, requestToken := requestToken, accessToken := "" }]
  | some _ => updateFirstAuth db apiKey (fun a => { a with requestToken := requestToken })

/-- `model.UpdateAccessToken`: fails with `gorm.ErrRecordNotFound` when no
row exists for the key. -/
def UpdateAccessToken (db : AuthDB) (apiKey accessToken : String) : Except GoError AuthDB :=
  match GetAuthByAPIKey db apiKey with
  | none => .error gormErrRecordNotFound
  | some _ => .ok (updateFirstAuth db apiKey (fun a => { a with accessToken := accessToken }))

/-- `kite.yaml` contents (`KiteConfig` in `login.go`). -/
structure KiteConfig where
  apiKey : String
  apiSecret : String
  userID : String
  password : String
  totpToken : String
  deriving Repr, DecidableEq

/-- The credential completeness check both `LoginAndStoreToken` and
`FetchAccessTokenFromRequestToken` perform before any network step. -/
def KiteConfig.credsMissing (c : KiteConfig) : Bool :=
  c.apiKey == "" || c.apiSecret == "" || c.userID == "" || c.password == "" || c.totpToken == ""

/-- The parsed shape of the expiry-probe HTTP response
(`checkIfAccessTokenIsExpired`): status code, whether the body could be read
and parsed, and the parsed `status` / `error_type` fields. -/
structure ProbeResp where
  statusCode : Nat
  readOk : Bool
  parseOk : Bool
  bodyStatus : String
  errorType : String
  deriving Repr, DecidableEq

/-- Outcome of the probe's single HTTP round trip. -/
inductive ProbeResult where
  | createReqError
  | transportError
  | resp (r : ProbeResp)
  deriving Repr, DecidableEq

/-- `checkIfAccessTokenIsExpired`: request-creation and transport failures,
an unreadable or unparsable 403 body, a 403 `TokenException`, and every
non-200 status are all treated as expired; only a 200 means valid. -/
def checkIfAccessTokenIsExpired (pr : ProbeResult) : Bool :=
  match pr with
  | .createReqError => true
  | .transportError => true
  | .resp r =>
      if r.statusCode == 403 &&
         (!r.readOk || !r.parseOk ||
          (r.bodyStatus == "error" && r.errorType == "TokenException")) then
        true
      else if r.statusCode == 200 then false
      else true

/-- Outcome of the token-exchange HTTP round trip
(`FetchAccessTokenFromRequestToken`): transport, body-read or JSON-parse
failure, or a parsed response with its `status` and `access_token` fields. -/
inductive ExchangeOutcome where
  | transportError
  | readError
  | parseError
  | response (status : String) (accessToken : String)
  deriving Repr, DecidableEq

/-- Structured stand-ins for the `fmt.Errorf` values the kite package
produces along the token-acquisition paths. -/
inductive KiteErr where
  | configLoadFailed
  | configNotConfigured
  | exchangeTransport
  | exchangeRead
  | exchangeParse
  | exchangeNonSuccess
  | retriesExhausted (inner : KiteErr)
  | loginOnRetryFailed (inner : KiteErr)
  | noRequestTokenAfterLogin
  | loginAndStoreFailed (inner : KiteErr)
  | unexpectedNoRequestToken
  | retryFailed (inner : KiteErr)
  | updateAccessTokenFailed
  deriving Repr, DecidableEq

/-- The externally visible steps of one `GetValidAccessToken` call. -/
inductive Event where
  | probe
  | login
  | exchange (requestToken : String)
  deriving Repr, DecidableEq

/-- How many login-flow runs a trace contains. -/
def countLogin (tr : List Event) : Nat :=
  tr.countP (fun e => match e with | .login => true | _ => false)

/-- How many exchange attempts a trace contains. -/
def countExchange (tr : List Event) : Nat :=
  tr.countP (fun e => match e with | .exchange _ => true | _ => false)

/-- The request tokens of the exchange attempts, in order. -/
def exchangeTokens (tr : List Event) : List String :=
  tr.filterMap (fun e => match e with | .exchange t => some t | _ => none)

/-- Every exchange attempt after the first is separated from its predecessor
by at least one login-flow run. The flag records whether an exchange has
happened with no login since. -/
def retriesPrecededByLogin (pending : Bool) : List Event → Bool
  | [] => true
  | .probe :: rest => retriesPrecededByLogin pending rest
  | .login :: rest => retriesPrecededByLogin false rest
  | .exchange _ :: rest => if pending then false else retriesPrecededByLogin true rest

/-- The oracles resolving one `GetValidAccessToken` call's external steps:
the loaded `kite.yaml` (none = `loadKiteConfig` failed), the probe response,
the result of the `k`-th `DoAutoLogin` run (none = the web flow failed and
`DoManualLogin` is taken), and the `k`-th exchange round trip. The config
file and probe are read anew on each use but unchanged within one call. -/
structure Env where
  cfgLoad : Option KiteConfig
  probeResult : ProbeResult
  loginResults : Nat → Option String
  exchangeResults : Nat → ExchangeOutcome

/-- The mutable context of one call: the `kite_auth` table and the trace. -/
structure TMState where
  db : AuthDB
  trace : List Event
  deriving Repr, DecidableEq

/-- `LoginAndStoreTokenForAPIKey` as invoked by `token_manager.go`; its body
is `LoginAndStoreToken` (`login.go`), storing under the account's API key:
check config, fail on missing credentials, otherwise run `DoAutoLogin`; on
success store the fresh request token, on failure fall back to
`DoManualLogin` (which only logs) and still return nil. -/
def LoginAndStoreTokenForAPIKey (env : Env) (apiKey : String) (s : TMState) :
    Except KiteErr Unit × TMState :=
  match env.cfgLoad with
  | none => (.error .configLoadFailed, s)
  | some cfg =>
      if cfg.credsMissing then (.error .configNotConfigured, s)
      else
        let idx := countLogin s.trace
        let s1 : TMState := { s with trace := s.trace ++ [Event.login] }
        match env.loginResults idx with
        | some requestToken =>
            (.ok (), { s1 with db := StoreRequestToken s1.db apiKey requestToken })
        | none => (.ok (), s1)

/-- `FetchAccessTokenFromRequestToken`: check config, fail on missing
credentials before any network step, then POST the exchange request (the
checksum only feeds the request payload and is omitted); a parsed response
succeeds only with `status == "success"`. -/
def FetchAccessTokenFromRequestToken (env : Env) (requestToken : String) (s : TMState) :
    Except KiteErr String × TMState :=
  match env.cfgLoad with
  | none => (.error .configLoadFailed, s)
  | some cfg =>
      if cfg.credsMissing then (.error .configNotConfigured, s)
      else
        let idx := countExchange s.trace
        let s1 : TMState := { s with trace := s.trace ++ [Event.exchange requestToken] }
        match env.exchangeResults idx with
        | .transportError => (.error .exchangeTransport, s1)
        | .readError => (.error .exchangeRead, s1)
        | .parseError => (.error .exchangeParse, s1)
        | .response status accessToken =>
            if status == "success" then (.ok accessToken, s1)
            else (.error .exchangeNonSuccess, s1)

/-- The loop of `getAccessTokenFromRequestTokenWithRetry`. `remaining` is
`maxRetries - attempt`: at `0` this is the last attempt and a failure is
wrapped and returned; otherwise a failed exchange triggers a fresh
`LoginAndStoreTokenForAPIKey`, a re-read of the stored auth row, and a retry
with the request token now stored. -/
def retryLoop (env : Env) (apiKey : String) :
    Nat → String → TMState → Except KiteErr String × TMState
  | 0, requestToken, s =>
      match FetchAccessTokenFromRequestToken env requestToken s with
      | (.ok accessToken, s1) => (.ok accessToken, s1)
      | (.error e, s1) => (.error (.retriesExhausted e), s1)
  | remaining + 1, requestToken, s =>
      match FetchAccessTokenFromRequestToken env requestToken s with
      | (.ok accessToken, s1) => (.ok accessToken, s1)
      | (.error _, s1) =>
          match LoginAndStoreTokenForAPIKey env apiKey s1 with
          | (.error e, s2) => (.error (.loginOnRetryFailed e), s2)
          | (.ok _, s2) =>
              match GetAuthByAPIKey s2.db apiKey with
              | none => (.error .noRequestTokenAfterLogin, s2)
              | some auth =>
                  if auth.requestToken == "" then (.error .noRequestTokenAfterLogin, s2)
                  else retryLoop env apiKey remaining auth.requestToken s2

/-- `getAccessTokenFromRequestTokenWithRetry`: `maxRetries = 2`, so three
exchange attempts in all. -/
def getAccessTokenFromRequestTokenWithRetry (env : Env) (apiKey requestToken : String)
    (s : TMState) : Except KiteErr String × TMState :=
  retryLoop env apiKey 2 requestToken s

/-- The tail of `GetValidAccessToken`: exchange the stored request token with
retry, then persist the fresh access token (`model.UpdateAccessToken`). -/
def exchangeAndPersist (env : Env) (apiKey requestToken : String) (s : TMState) :
    Except KiteErr String × TMState :=
  match getAccessTokenFromRequestTokenWithRetry env apiKey requestToken s with
  | (.error e, s1) => (.error (.retryFailed e), s1)
  | (.ok accessToken, s1) =>
      match UpdateAccessToken s1.db apiKey accessToken with
      | .error _ => (.error .updateAccessTokenFailed, s1)
      | .ok db1 => (.ok accessToken, { s1 with db := db1 })

/-- `GetValidAccessToken` from the point where the cached token was absent or
expired: mint a request token if none is stored, re-read the auth row, then
exchange with retry and persist the access token. -/
def getValidAccessTokenRest (env : Env) (apiKey : String) (auth0 : Option KiteAuth)
    (s : TMState) : Except KiteErr String × TMState :=
  let step :=
    match auth0 with
    | none => none
    | some a => if a.requestToken == "" then none else some a
  match step with
  | some a => exchangeAndPersist env apiKey a.requestToken s
  | none =>
      match LoginAndStoreTokenForAPIKey env apiKey s with
      | (.error e, s1) => (.error (.loginAndStoreFailed e), s1)
      | (.ok _, s1) =>
          match GetAuthByAPIKey s1.db apiKey with
          | none => (.error .unexpectedNoRequestToken, s1)
          | some a =>
              if a.requestToken == "" then (.error .unexpectedNoRequestToken, s1)
              else exchangeAndPersist env apiKey a.requestToken s1

/-- `GetValidAccessToken` (`token_manager.go`): read the stored auth; when a
non-empty access token is cached, probe it and return it unchanged if the
probe says it is still valid; otherwise fall through to the login/exchange
path. -/
def GetValidAccessToken (env : Env) (apiKey : String) (s : TMState) :
    Except KiteErr String × TMState :=
  let auth0 := GetAuthByAPIKey s.db apiKey
  match auth0 with
  | some a =>
      if a.accessToken == "" then getValidAccessTokenRest env apiKey auth0 s
      else
        let s1 : TMState := { s with trace := s.trace ++ [Event.probe] }
        if !checkIfAccessTokenIsExpired env.probeResult then (.ok a.accessToken, s1)
        else getValidAccessTokenRest env apiKey auth0 s1
  | none => getValidAccessTokenRest env apiKey auth0 s

end Paisa.Kite

namespace Paisa

/-! ## Ledger lemmas -/

theorem isDatabaseLockedError_recordNotFound :
    isDatabaseLockedError (some gormErrRecordNotFound) = false := by decide

theorem retryOnLockedDatabase_const_none :
    retryOnLockedDatabase (fun _ => none) = ⟨none, 1, []⟩ := rfl

theorem retryOnLockedDatabase_const_notLocked (e : GoError)
    (h : isDatabaseLockedError (some e) = false) :
    retryOnLockedDatabase (fun _ => some e) = ⟨some e, 1, []⟩ := by
  simp [retryOnLockedDatabase, retryGo, h]

theorem UpdateLastRun_eq (db : LedgerDB) (name : String) (now : GoTime) :
    UpdateLastRun db name now = .ok (updateLastRunTxn db name now) := rfl

theorem UpdateLastSuccessfulRun_eq (db : LedgerDB) (name : String) (now : GoTime) :
    UpdateLastSuccessfulRun db name now = .ok (updateLastSuccessfulRunTxn db name now) := rfl

theorem getLastSuccessfulRun_notFound (db : LedgerDB) (name : String)
    (h : firstTaskExecution db name = none) :
    GetLastSuccessfulRun db name = .ok goZeroTime := by
  simp [GetLastSuccessfulRun, ledgerQueryErr, h,
    retryOnLockedDatabase_const_notLocked _ isDatabaseLockedError_recordNotFound]

theorem getLastSuccessfulRun_found (db : LedgerDB) (name : String) (ex : TaskExecution)
    (h : firstTaskExecution db name = some ex) :
    GetLastSuccessfulRun db name = .ok ex.lastSuccessfulRun := by
  simp [GetLastSuccessfulRun, ledgerQueryErr, h, retryOnLockedDatabase_const_none]

theorem getLastRun_notFound (db : LedgerDB) (name : String)
    (h : firstTaskExecution db name = none) :
    GetLastRun db name = .ok goZeroTime := by
  simp [GetLastRun, ledgerQueryErr, h,
    retryOnLockedDatabase_const_notLocked _ isDatabaseLockedError_recordNotFound]

theorem getLastRun_found (db : LedgerDB) (name : String) (ex : TaskExecution)
    (h : firstTaskExecution db name = some ex) :
    GetLastRun db name = .ok ex.lastRun := by
  simp [GetLastRun, ledgerQueryErr, h, retryOnLockedDatabase_const_none]

/-- C10 — For every task name with no execution-ledger row, `GetLastRun` and
`GetLastSuccessfulRun` both return the zero time value with no error: the
record-not-found condition is absorbed and never surfaced. -/
theorem c10_missing_row_absorbed (db : LedgerDB) (name : String)
    (h : firstTaskExecution db name = none) :
    GetLastRun db name = .ok goZeroTime ∧ GetLastSuccessfulRun db name = .ok goZeroTime :=
  ⟨getLastRun_notFound db name h, getLastSuccessfulRun_notFound db name h⟩

theorem c10_missing_row_absorbed_witness :
    GetLastRun [] "Daily Trades Fetch" = .ok goZeroTime ∧
    GetLastSuccessfulRun [] "Daily Trades Fetch" = .ok goZeroTime :=
  c10_missing_row_absorbed [] "Daily Trades Fetch" rfl

/-- C2 — `ShouldRunToday` returns true exactly when no successful run is
recorded (row absent or stored `last_successful_run` zero) or the stored last
successful run's local calendar date strictly precedes today's; in every
other case it returns false. `claimShouldRunToday` is the claim's wording. -/
theorem c2_shouldRunToday_characterization (db : LedgerDB) (name : String) (now : GoTime) :
    ShouldRunToday db name now = .ok (claimShouldRunToday db name now) := by
  unfold ShouldRunToday claimShouldRunToday
  cases h : firstTaskExecution db name with
  | none =>
      rw [getLastSuccessfulRun_notFound db name h]
      simp [GoTime.isZero]
  | some ex =>
      rw [getLastSuccessfulRun_found db name ex h]
      by_cases hz : ex.lastSuccessfulRun = goZeroTime
      · simp [GoTime.isZero, hz]
      · have hz' : (ex.lastSuccessfulRun == goZeroTime) = false := by
          simp [hz]
        simp only [GoTime.isZero, hz', Bool.false_eq_true, if_false, Bool.false_or]
        congr 1
        simp only [GoTime.before, GoTime.midnight, GoTime.instant]
        rw [decide_eq_decide]
        omega

/-! ## C4 — the locked-database retry policy -/

/-- Full characterization of a `retryGo` run, by induction on the remaining
iterations. -/
theorem retryGo_spec (op : Nat → Option GoError) :
    ∀ fuel, 1 ≤ fuel → ∀ i backoff sleeps,
      i + 1 ≤ (retryGo op fuel backoff i sleeps).attempts ∧
      (retryGo op fuel backoff i sleeps).attempts ≤ i + fuel ∧
      (retryGo op fuel backoff i sleeps).sleeps =
        sleeps ++ (List.range ((retryGo op fuel backoff i sleeps).attempts - 1 - i)).map
          (fun k => backoff * 2 ^ k) ∧
      (∀ j, i ≤ j → j + 1 < (retryGo op fuel backoff i sleeps).attempts →
        isDatabaseLockedError (op j) = true) ∧
      (retryGo op fuel backoff i sleeps).err = op ((retryGo op fuel backoff i sleeps).attempts - 1) := by
  intro fuel
  induction fuel with
  | zero => omega
  | succ n ih =>
      intro _ i backoff sleeps
      cases hop : op i with
      | none =>
          have hred : retryGo op (n + 1) backoff i sleeps = ⟨none, i + 1, sleeps⟩ := by
            rw [retryGo, hop]
          rw [hred]
          dsimp only
          refine ⟨by omega, by omega, by simp, ?_, by simpa using hop.symm⟩
          intro j hj hj2
          omega
      | some e =>
          by_cases hl : (isDatabaseLockedError (some e) && (n != 0)) = true
          · have hl2 : isDatabaseLockedError (some e) = true ∧ (n != 0) = true := by
              simpa [Bool.and_eq_true] using hl
            have hn : 1 ≤ n := by
              have := hl2.2
              simp only [ne_eq, bne_iff_ne] at this
              omega
            have hred : retryGo op (n + 1) backoff i sleeps =
                retryGo op n (backoff * 2) (i + 1) (sleeps ++ [backoff]) := by
              rw [retryGo, hop]
              simp [hl]
            rw [hred]
            obtain ⟨ha1, ha2, hs, hlock, herr⟩ := ih hn (i + 1) (backoff * 2) (sleeps ++ [backoff])
            refine ⟨by omega, by omega, ?_, ?_, herr⟩
            · rw [hs]
              have hA : (retryGo op n (backoff * 2) (i + 1) (sleeps ++ [backoff])).attempts - 1 - i =
                  ((retryGo op n (backoff * 2) (i + 1) (sleeps ++ [backoff])).attempts - 1 - (i + 1)) + 1 := by
                omega
              rw [hA, List.range_succ_eq_map, List.map_cons, List.map_map]
              simp only [pow_zero, mul_one, List.append_assoc, List.singleton_append]
              congr 2
              apply List.map_congr_left
              intro k _
              simp only [Function.comp_apply, pow_succ]
              ring
            · intro j hj hj2
              rcases Nat.eq_or_lt_of_le hj with hji | hji
              · rw [← hji, hop]
                exact hl2.1
              · exact hlock j hji hj2
          · have hred : retryGo op (n + 1) backoff i sleeps = ⟨some e, i + 1, sleeps⟩ := by
              rw [retryGo, hop]
              simp [hl]
            rw [hred]
            dsimp only
            refine ⟨by omega, by omega, by simp, ?_, by simpa using hop.symm⟩
            intro j hj hj2
            omega

/-- C4 — every ledger write goes through `retryOnLockedDatabase`, which makes
between 1 and 5 attempts, sleeps 10ms doubling after each retried failure,
retries only attempts that failed with a busy/locked error, and returns
whatever the final attempt produced (so any non-locked error propagates
immediately after the attempt that raised it). -/
theorem c4_retry_policy (op : Nat → Option GoError) :
    1 ≤ (retryOnLockedDatabase op).attempts ∧
    (retryOnLockedDatabase op).attempts ≤ 5 ∧
    (retryOnLockedDatabase op).sleeps =
      (List.range ((retryOnLockedDatabase op).attempts - 1)).map (fun k => 10 * 2 ^ k) ∧
    ((List.range ((retryOnLockedDatabase op).attempts - 1)).all
      (fun j => isDatabaseLockedError (op j))) = true ∧
    (retryOnLockedDatabase op).err = op ((retryOnLockedDatabase op).attempts - 1) := by
  simp only [retryOnLockedDatabase]
  obtain ⟨h1, h2, h3, h4, h5⟩ := retryGo_spec op 5 (by omega) 0 10 []
  refine ⟨by omega, by omega, by simpa using h3, ?_, h5⟩
  rw [List.all_eq_true]
  intro j hj
  rw [List.mem_range] at hj
  exact h4 j (Nat.zero_le j) (by omega)

/-- C4 witness: two busy failures, then an unrelated error; the policy stops
at the third attempt having slept 10ms and 20ms, and returns that error. -/
theorem c4_retry_policy_witness :
    1 ≤ (retryOnLockedDatabase (fun i => if i < 2 then some ⟨"busy"⟩ else some ⟨"boom"⟩)).attempts ∧
    (retryOnLockedDatabase (fun i => if i < 2 then some ⟨"busy"⟩ else some ⟨"boom"⟩)).attempts ≤ 5 ∧
    (retryOnLockedDatabase (fun i => if i < 2 then some ⟨"busy"⟩ else some ⟨"boom"⟩)).sleeps =
      (List.range ((retryOnLockedDatabase (fun i => if i < 2 then some ⟨"busy"⟩ else some ⟨"boom"⟩)).attempts - 1)).map
        (fun k => 10 * 2 ^ k) ∧
    ((List.range ((retryOnLockedDatabase (fun i => if i < 2 then some ⟨"busy"⟩ else some ⟨"boom"⟩)).attempts - 1)).all
      (fun j => isDatabaseLockedError (if j < 2 then some ⟨"busy"⟩ else some ⟨"boom"⟩))) = true ∧
    (retryOnLockedDatabase (fun i => if i < 2 then some ⟨"busy"⟩ else some ⟨"boom"⟩)).err =
      (if (retryOnLockedDatabase (fun i => if i < 2 then some ⟨"busy"⟩ else some ⟨"boom"⟩)).attempts - 1 < 2
       then some ⟨"busy"⟩ else some ⟨"boom"⟩) :=
  c4_retry_policy (fun i => if i < 2 then some ⟨"busy"⟩ else some ⟨"boom"⟩)

/-! ## Date-comparison helper -/

theorem goTime_before_midnight (a b : GoTime) :
    a.midnight.before b.midnight = decide (a.day < b.day) := by
  simp only [GoTime.before, GoTime.midnight, GoTime.instant]
  rw [decide_eq_decide]
  omega

/-! ## List helpers for the upsert transactions -/

theorem find?_eq_head?_filter {α : Type} (p : α → Bool) :
    ∀ l : List α, l.find? p = (l.filter p).head? := by
  intro l
  induction l with
  | nil => rfl
  | cons a rest ih =>
      cases ha : p a with
      | true =>
          rw [List.find?_cons_of_pos _ ha, List.filter_cons_of_pos ha, List.head?_cons]
      | false =>
          rw [List.find?_cons_of_neg _ (by simp [ha]),
            List.filter_cons_of_neg (by simp [ha]), ih]

theorem find?_append_of_none {α : Type} (p : α → Bool) (l₁ l₂ : List α)
    (h : l₁.find? p = none) : (l₁ ++ l₂).find? p = l₂.find? p := by
  rw [List.find?_append, h, Option.none_or]

theorem find_updateFirstTaskExecution (name : String) (f : TaskExecution → TaskExecution)
    (hf : ∀ ex, (f ex).taskName = ex.taskName) :
    ∀ db : LedgerDB,
      firstTaskExecution (updateFirstTaskExecution db name f) name =
        (firstTaskExecution db name).map f := by
  intro db
  induction db with
  | nil => rfl
  | cons ex rest ih =>
      simp only [firstTaskExecution] at *
      cases hx : (ex.taskName == name) with
      | true =>
          have hfx : ((f ex).taskName == name) = true := by rw [hf ex]; exact hx
          simp [updateFirstTaskExecution, List.find?_cons, hx, hfx]
      | false =>
          simp [updateFirstTaskExecution, List.find?_cons, hx, ih]

theorem countP_updateFirstTaskExecution (name : String) (f : TaskExecution → TaskExecution)
    (p : TaskExecution → Bool) (hp : ∀ ex, p (f ex) = p ex) :
    ∀ db : LedgerDB, (updateFirstTaskExecution db name f).countP p = db.countP p := by
  intro db
  induction db with
  | nil => rfl
  | cons ex rest ih =>
      cases hx : (ex.taskName == name) with
      | true => simp [updateFirstTaskExecution, hx, List.countP_cons, hp]
      | false => simp [updateFirstTaskExecution, hx, List.countP_cons, ih]

theorem filter_updateFirstTaskExecution (name : String) (f : TaskExecution → TaskExecution)
    (hf : ∀ ex, (f ex).taskName = ex.taskName) :
    ∀ db : LedgerDB,
      (updateFirstTaskExecution db name f).filter (fun ex => ex.taskName == name) =
        match db.filter (fun ex => ex.taskName == name) with
        | [] => []
        | ex :: rest => f ex :: rest := by
  intro db
  induction db with
  | nil => rfl
  | cons ex rest ih =>
      cases hx : (ex.taskName == name) with
      | true =>
          have hfx : ((f ex).taskName == name) = true := by rw [hf ex]; exact hx
          simp [updateFirstTaskExecution, List.filter_cons, hx, hfx]
      | false =>
          simp [updateFirstTaskExecution, List.filter_cons, hx, ih]

theorem first_updateLastSuccessfulRunTxn (db : LedgerDB) (name : String) (t : GoTime) :
    (firstTaskExecution (updateLastSuccessfulRunTxn db name t) name).map
      (fun ex => ex.lastSuccessfulRun) = some t := by
  unfold updateLastSuccessfulRunTxn
  cases h : firstTaskExecution db name with
  | none =>
      simp only [firstTaskExecution] at *
      rw [find?_append_of_none _ _ _ h]
      simp [List.find?_cons]
  | some ex =>
      simp only
      rw [find_updateFirstTaskExecution name
        (fun ex => { ex with lastRun := t, lastSuccessfulRun := t,
                             success := true, updatedAt := t })
        (fun ex => rfl) db]
      simp [h]

/-- C3 — after `UpdateLastRun` then `UpdateLastSuccessfulRun` (at time `t2`)
both complete, `ShouldRunToday` answers false at any query time on the same
local calendar day and true once the queried date has advanced past it. -/
theorem c3_run_today_after_success (db db1 db2 : LedgerDB) (name : String)
    (t1 t2 q1 q2 : GoTime)
    (hz : t2 ≠ goZeroTime)
    (h1 : UpdateLastRun db name t1 = .ok db1)
    (h2 : UpdateLastSuccessfulRun db1 name t2 = .ok db2)
    (hq1 : q1.day = t2.day) (hq2 : t2.day < q2.day) :
    ShouldRunToday db2 name q1 = .ok false ∧ ShouldRunToday db2 name q2 = .ok true := by
  have hdb2 : db2 = updateLastSuccessfulRunTxn db1 name t2 := by
    have he := UpdateLastSuccessfulRun_eq db1 name t2
    rw [h2] at he
    injection he
  obtain ⟨ex, hex, hlsr⟩ := Option.map_eq_some'.mp
    (hdb2 ▸ first_updateLastSuccessfulRunTxn db1 name t2)
  constructor
  · unfold ShouldRunToday
    rw [getLastSuccessfulRun_found db2 name ex hex]
    simp [GoTime.isZero, goTime_before_midnight, hlsr, hz, hq1]
  · unfold ShouldRunToday
    rw [getLastSuccessfulRun_found db2 name ex hex]
    simp [GoTime.isZero, goTime_before_midnight, hlsr, hz, hq2]

theorem c3_run_today_after_success_witness :
    ShouldRunToday [⟨"x", ⟨3, 200⟩, ⟨3, 200⟩, true, ⟨3, 100⟩, ⟨3, 200⟩⟩] "x" ⟨3, 300⟩ = .ok false ∧
    ShouldRunToday [⟨"x", ⟨3, 200⟩, ⟨3, 200⟩, true, ⟨3, 100⟩, ⟨3, 200⟩⟩] "x" ⟨4, 0⟩ = .ok true :=
  c3_run_today_after_success [] [⟨"x", ⟨3, 100⟩, goZeroTime, false, ⟨3, 100⟩, ⟨3, 100⟩⟩]
    [⟨"x", ⟨3, 200⟩, ⟨3, 200⟩, true, ⟨3, 100⟩, ⟨3, 200⟩⟩] "x" ⟨3, 100⟩ ⟨3, 200⟩ ⟨3, 300⟩ ⟨4, 0⟩
    (by decide) rfl rfl rfl (by decide)

/-! ## C5 — upsert semantics of the ledger -/

/-- The number of ledger rows carrying a given task name. -/
def countNamed (db : LedgerDB) (name : String) : Nat :=
  db.countP (fun ex => ex.taskName == name)

theorem updateLastRunTxn_of_none (db : LedgerDB) (name : String) (t : GoTime)
    (h : firstTaskExecution db name = none) :
    updateLastRunTxn db name t =
      db ++ [{ taskName := name, lastRun := t, lastSuccessfulRun := goZeroTime,
               success := false, createdAt := t, updatedAt := t }] := by
  rw [updateLastRunTxn, h]

theorem updateLastRunTxn_of_found (db : LedgerDB) (name : String) (t : GoTime)
    (ex : TaskExecution) (h : firstTaskExecution db name = some ex) :
    updateLastRunTxn db name t =
      updateFirstTaskExecution db name
        (fun e => { e with lastRun := t, success := false, updatedAt := t }) := by
  rw [updateLastRunTxn, h]

theorem updateLastSuccessfulRunTxn_of_none (db : LedgerDB) (name : String) (t : GoTime)
    (h : firstTaskExecution db name = none) :
    updateLastSuccessfulRunTxn db name t =
      db ++ [{ taskName := name, lastRun := t, lastSuccessfulRun := t,
               success := true, createdAt := t, updatedAt := t }] := by
  rw [updateLastSuccessfulRunTxn, h]

theorem updateLastSuccessfulRunTxn_of_found (db : LedgerDB) (name : String) (t : GoTime)
    (ex : TaskExecution) (h : firstTaskExecution db name = some ex) :
    updateLastSuccessfulRunTxn db name t =
      updateFirstTaskExecution db name
        (fun e => { e with lastRun := t, lastSuccessfulRun := t,
                           success := true, updatedAt := t }) := by
  rw [updateLastSuccessfulRunTxn, h]

theorem filter_singleton_of_count_one (db : LedgerDB) (name : String) (ex : TaskExecution)
    (hfe : firstTaskExecution db name = some ex)
    (hu : countNamed db name ≤ 1) :
    db.filter (fun e => e.taskName == name) = [ex] := by
  have hhead : (db.filter (fun e => e.taskName == name)).head? = some ex := by
    rw [← find?_eq_head?_filter]
    exact hfe
  have hlen : (db.filter (fun e => e.taskName == name)).length ≤ 1 := by
    rw [← List.countP_eq_length_filter]
    exact hu
  cases hfil : db.filter (fun e => e.taskName == name) with
  | nil => rw [hfil] at hhead; cases hhead
  | cons a rest =>
      rw [hfil] at hhead hlen
      rw [List.head?_cons] at hhead
      injection hhead with hhead
      subst hhead
      cases rest with
      | nil => rfl
      | cons b r => simp at hlen

/-- C5 — upsert semantics: starting from a ledger with at most one row for
the task, each write leaves exactly one row for it, never touches rows of
other names (so no row is ever deleted), and two consecutive `UpdateLastRun`
calls leave a single row whose `last_run` is the second call's timestamp. -/
theorem c5_upsert_semantics (db db1 db2 db3 : LedgerDB) (name m : String)
    (t1 t2 t3 : GoTime)
    (hm : m ≠ name)
    (hu : countNamed db name ≤ 1)
    (h1 : UpdateLastRun db name t1 = .ok db1)
    (h2 : UpdateLastRun db1 name t2 = .ok db2)
    (h3 : UpdateLastSuccessfulRun db name t3 = .ok db3) :
    countNamed db1 name = 1 ∧
    countNamed db1 m = countNamed db m ∧
    countNamed db3 name = 1 ∧
    countNamed db3 m = countNamed db m ∧
    (db2.filter (fun ex => ex.taskName == name)).map (fun ex => ex.lastRun) = [t2] := by
  have hdb1 : db1 = updateLastRunTxn db name t1 := by
    have he := UpdateLastRun_eq db name t1
    rw [h1] at he
    injection he
  have hdb2 : db2 = updateLastRunTxn db1 name t2 := by
    have he := UpdateLastRun_eq db1 name t2
    rw [h2] at he
    injection he
  have hdb3 : db3 = updateLastSuccessfulRunTxn db name t3 := by
    have he := UpdateLastSuccessfulRun_eq db name t3
    rw [h3] at he
    injection he
  subst hdb1 hdb2 hdb3
  have hnm : (name == m) = false := beq_eq_false_iff_ne.mpr (Ne.symm hm)
  cases hfe : firstTaskExecution db name with
  | none =>
      have hfe' : List.find? (fun ex => ex.taskName == name) db = none := hfe
      have hnone : ∀ a ∈ db, ¬(a.taskName == name) = true := List.find?_eq_none.mp hfe
      have h0 : List.countP (fun ex => ex.taskName == name) db = 0 :=
        List.countP_eq_zero.mpr hnone
      have hfilnil : db.filter (fun e => e.taskName == name) = [] :=
        List.filter_eq_nil.mpr hnone
      have hstep1 := updateLastRunTxn_of_none db name t1 hfe
      have hstep3 := updateLastSuccessfulRunTxn_of_none db name t3 hfe
      have hfil1 : (updateLastRunTxn db name t1).filter (fun e => e.taskName == name) =
          [{ taskName := name, lastRun := t1, lastSuccessfulRun := goZeroTime,
             success := false, createdAt := t1, updatedAt := t1 }] := by
        rw [hstep1, List.filter_append, hfilnil]
        simp [List.filter_cons]
      have hfe1 : firstTaskExecution (updateLastRunTxn db name t1) name =
          some { taskName := name, lastRun := t1, lastSuccessfulRun := goZeroTime,
                 success := false, createdAt := t1, updatedAt := t1 } := by
        rw [firstTaskExecution, find?_eq_head?_filter, hfil1, List.head?_cons]
      refine ⟨?_, ?_, ?_, ?_, ?_⟩
      · rw [hstep1, countNamed, List.countP_append, h0]
        simp [List.countP_cons]
      · rw [hstep1, countNamed, countNamed, List.countP_append]
        simp [List.countP_cons, hnm]
      · rw [hstep3, countNamed, List.countP_append, h0]
        simp [List.countP_cons]
      · rw [hstep3, countNamed, countNamed, List.countP_append]
        simp [List.countP_cons, hnm]
      · have hstep2 := updateLastRunTxn_of_found (updateLastRunTxn db name t1) name t2 _ hfe1
        rw [hstep2,
          filter_updateFirstTaskExecution name
            (fun ex => { ex with lastRun := t2, success := false, updatedAt := t2 })
            (fun ex => rfl) (updateLastRunTxn db name t1),
          hfil1]
        simp
  | some ex0 =>
      have hfe'' : List.find? (fun e => e.taskName == name) db = some ex0 := hfe
      have hpos : 0 < countNamed db name := by
        rw [countNamed]
        have hpex := @List.find?_some TaskExecution (fun e => e.taskName == name) ex0 db hfe''
        exact List.countP_pos.mpr ⟨ex0, List.mem_of_find?_eq_some hfe'', hpex⟩
      have hone : countNamed db name = 1 := by omega
      have hfil : db.filter (fun e => e.taskName == name) = [ex0] :=
        filter_singleton_of_count_one db name ex0 hfe hu
      have key : ∀ f : TaskExecution → TaskExecution, (∀ e, (f e).taskName = e.taskName) →
          countNamed (updateFirstTaskExecution db name f) name = 1 ∧
          countNamed (updateFirstTaskExecution db name f) m = countNamed db m ∧
          (updateFirstTaskExecution db name f).filter (fun e => e.taskName == name) =
            [f ex0] := by
        intro f hf
        refine ⟨?_, ?_, ?_⟩
        · rw [countNamed,
            countP_updateFirstTaskExecution name f _ (fun e => by rw [hf e])]
          exact hone
        · rw [countNamed,
            countP_updateFirstTaskExecution name f _ (fun e => by rw [hf e])]
          rfl
        · rw [filter_updateFirstTaskExecution name f hf db, hfil]
      have hstep1 := updateLastRunTxn_of_found db name t1 ex0 hfe
      have hstep3 := updateLastSuccessfulRunTxn_of_found db name t3 ex0 hfe
      obtain ⟨k1a, k1b, k1c⟩ :=
        key (fun ex => { ex with lastRun := t1, success := false, updatedAt := t1 })
          (fun e => rfl)
      obtain ⟨k3a, k3b, -⟩ :=
        key (fun ex => { ex with lastRun := t3, lastSuccessfulRun := t3,
                                 success := true, updatedAt := t3 })
          (fun e => rfl)
      have hfil1 : (updateLastRunTxn db name t1).filter (fun e => e.taskName == name) =
          [{ ex0 with lastRun := t1, success := false, updatedAt := t1 }] := by
        rw [hstep1]; exact k1c
      have hfe1 : firstTaskExecution (updateLastRunTxn db name t1) name =
          some { ex0 with lastRun := t1, success := false, updatedAt := t1 } := by
        rw [firstTaskExecution, find?_eq_head?_filter, hfil1, List.head?_cons]
      refine ⟨?_, ?_, ?_, ?_, ?_⟩
      · rw [hstep1]; exact k1a
      · rw [hstep1]; exact k1b
      · rw [hstep3]; exact k3a
      · rw [hstep3]; exact k3b
      · have hstep2 := updateLastRunTxn_of_found (updateLastRunTxn db name t1) name t2 _ hfe1
        rw [hstep2,
          filter_updateFirstTaskExecution name
            (fun ex => { ex with lastRun := t2, success := false, updatedAt := t2 })
            (fun ex => rfl) (updateLastRunTxn db name t1),
          hfil1]
        simp

theorem c5_upsert_semantics_witness :
    countNamed [⟨"x", ⟨2, 5⟩, goZeroTime, false, ⟨2, 5⟩, ⟨2, 5⟩⟩] "x" = 1 ∧
    countNamed [⟨"x", ⟨2, 5⟩, goZeroTime, false, ⟨2, 5⟩, ⟨2, 5⟩⟩] "y" = countNamed [] "y" ∧
    countNamed [⟨"x", ⟨2, 7⟩, ⟨2, 7⟩, true, ⟨2, 7⟩, ⟨2, 7⟩⟩] "x" = 1 ∧
    countNamed [⟨"x", ⟨2, 7⟩, ⟨2, 7⟩, true, ⟨2, 7⟩, ⟨2, 7⟩⟩] "y" = countNamed [] "y" ∧
    (([⟨"x", ⟨2, 6⟩, goZeroTime, false, ⟨2, 5⟩, ⟨2, 6⟩⟩] :
        LedgerDB).filter (fun ex => ex.taskName == "x")).map (fun ex => ex.lastRun) =
      [⟨2, 6⟩] :=
  c5_upsert_semantics [] [⟨"x", ⟨2, 5⟩, goZeroTime, false, ⟨2, 5⟩, ⟨2, 5⟩⟩]
    [⟨"x", ⟨2, 6⟩, goZeroTime, false, ⟨2, 5⟩, ⟨2, 6⟩⟩]
    [⟨"x", ⟨2, 7⟩, ⟨2, 7⟩, true, ⟨2, 7⟩, ⟨2, 7⟩⟩]
    "x" "y" ⟨2, 5⟩ ⟨2, 6⟩ ⟨2, 7⟩ (by decide) (by decide) rfl rfl rfl

/-! ## C8 — per-execution ordering of the ledger writes -/

/-- C8 — in every single task execution, scheduled (`registerTask` closure)
or startup catch-up (`runStartupTasks` goroutine), `UpdateLastRun` is invoked
strictly before the task body, and `UpdateLastSuccessfulRun` appears exactly
when the body returned without error, strictly after it. -/
theorem c8_execution_ordering (db : LedgerDB) (task : String) (t1 t2 : GoTime) (bodyOk : Bool) :
    ((registerTaskRun db task t1 bodyOk t2).2.indexOf (SchedEvent.updateLastRun task) <
      (registerTaskRun db task t1 bodyOk t2).2.indexOf (SchedEvent.runBody task bodyOk)) ∧
    ((registerTaskRun db task t1 bodyOk t2).2.indexOf (SchedEvent.runBody task bodyOk) <
      (registerTaskRun db task t1 bodyOk t2).2.indexOf (SchedEvent.updateLastSuccessfulRun task)) ∧
    ((registerTaskRun db task t1 bodyOk t2).2.contains (SchedEvent.updateLastSuccessfulRun task)
      = bodyOk) ∧
    ((startupTaskRun db task t1 bodyOk t2).2.indexOf (SchedEvent.updateLastRun task) <
      (startupTaskRun db task t1 bodyOk t2).2.indexOf (SchedEvent.runBody task bodyOk)) ∧
    ((startupTaskRun db task t1 bodyOk t2).2.indexOf (SchedEvent.runBody task bodyOk) <
      (startupTaskRun db task t1 bodyOk t2).2.indexOf (SchedEvent.updateLastSuccessfulRun task)) ∧
    ((startupTaskRun db task t1 bodyOk t2).2.contains (SchedEvent.updateLastSuccessfulRun task)
      = bodyOk) := by
  have hb1 : ∀ ok : Bool, (SchedEvent.updateLastRun task == SchedEvent.runBody task ok) = false := by
    intro ok; simp [beq_eq_false_iff_ne]
  have hb2 : (SchedEvent.updateLastRun task == SchedEvent.updateLastSuccessfulRun task) = false := by
    simp [beq_eq_false_iff_ne]
  have hb3 : ∀ ok : Bool, (SchedEvent.runBody task ok == SchedEvent.updateLastSuccessfulRun task) = false := by
    intro ok; simp [beq_eq_false_iff_ne]
  have hb4 : (SchedEvent.updateLastSuccessfulRun task == SchedEvent.updateLastRun task) = false := by
    simp [beq_eq_false_iff_ne]
  have hb5 : ∀ ok : Bool, (SchedEvent.updateLastSuccessfulRun task == SchedEvent.runBody task ok) = false := by
    intro ok; simp [beq_eq_false_iff_ne]
  cases bodyOk <;>
    simp [registerTaskRun, startupTaskRun, UpdateLastRun_eq, UpdateLastSuccessfulRun_eq,
      List.indexOf, List.findIdx_cons, List.contains, List.elem, hb1, hb2, hb3, hb4, hb5]

end Paisa

namespace Paisa.Kite

open Paisa

/-! ## Kite lemmas -/

/-- Whether a token-acquisition outcome is an error. -/
def resultIsError : Except KiteErr String → Bool
  | .error _ => true
  | .ok _ => false

/-- Modelled from the claim wording, for comparison with
`checkIfAccessTokenIsExpired`: the probe classifies the token as valid only
on a success (HTTP 200) response; every non-success response and every
transport failure counts as expiry. -/
def claimProbeValid : ProbeResult → Bool
  | .resp r => r.statusCode == 200
  | _ => false

theorem checkIfAccessTokenIsExpired_eq_not_claimProbeValid (pr : ProbeResult) :
    checkIfAccessTokenIsExpired pr = !(claimProbeValid pr) := by
  cases pr with
  | createReqError => rfl
  | transportError => rfl
  | resp q =>
      by_cases hq : q.statusCode = 200
      · simp [checkIfAccessTokenIsExpired, claimProbeValid, hq]
      · have hq' : (q.statusCode == 200) = false := by simpa using hq
        cases hguard : (q.statusCode == 403 &&
            (!q.readOk || !q.parseOk ||
             (q.bodyStatus == "error" && q.errorType == "TokenException"))) with
        | true => simp [checkIfAccessTokenIsExpired, claimProbeValid, hguard, hq']
        | false => simp [checkIfAccessTokenIsExpired, claimProbeValid, hguard, hq']

/-- C6 — with a cached non-empty access token and a probe success (HTTP 200)
response, `GetValidAccessToken` returns the cached token unchanged after the
probe alone (no login-flow run, no exchange, no state change); and the probe
classifies a token as valid exactly on a success response, treating every
non-success response and transport failure as expiry. -/
theorem c6_cached_token_valid (env : Env) (db : AuthDB) (apiKey : String)
    (a : KiteAuth) (r : ProbeResp) (pr : ProbeResult)
    (h1 : GetAuthByAPIKey db apiKey = some a)
    (h2 : a.accessToken ≠ "")
    (h3 : env.probeResult = .resp r)
    (h4 : r.statusCode = 200) :
    GetValidAccessToken env apiKey ⟨db, []⟩ = (.ok a.accessToken, ⟨db, [Event.probe]⟩) ∧
    countLogin (GetValidAccessToken env apiKey ⟨db, []⟩).2.trace = 0 ∧
    countExchange (GetValidAccessToken env apiKey ⟨db, []⟩).2.trace = 0 ∧
    checkIfAccessTokenIsExpired pr = !(claimProbeValid pr) := by
  have hexp : checkIfAccessTokenIsExpired env.probeResult = false := by
    rw [h3]
    simp [checkIfAccessTokenIsExpired, h4]
  have hat : (a.accessToken == "") = false := beq_eq_false_iff_ne.mpr h2
  have hmain : GetValidAccessToken env apiKey ⟨db, []⟩ =
      (.ok a.accessToken, ⟨db, [Event.probe]⟩) := by
    simp [GetValidAccessToken, h1, hat, hexp]
  refine ⟨hmain, ?_, ?_, checkIfAccessTokenIsExpired_eq_not_claimProbeValid pr⟩
  · rw [hmain]
    rfl
  · rw [hmain]
    rfl

theorem c6_cached_token_valid_witness :
    GetValidAccessToken
      { cfgLoad := none, probeResult := .resp ⟨200, true, true, "", ""⟩,
        loginResults := fun _ => none, exchangeResults := fun _ => .transportError }
      "k" ⟨[⟨"k", "rt", "at"⟩], []⟩ = (.ok "at", ⟨[⟨"k", "rt", "at"⟩], [Event.probe]⟩) ∧
    countLogin (GetValidAccessToken
      { cfgLoad := none, probeResult := .resp ⟨200, true, true, "", ""⟩,
        loginResults := fun _ => none, exchangeResults := fun _ => .transportError }
      "k" ⟨[⟨"k", "rt", "at"⟩], []⟩).2.trace = 0 ∧
    countExchange (GetValidAccessToken
      { cfgLoad := none, probeResult := .resp ⟨200, true, true, "", ""⟩,
        loginResults := fun _ => none, exchangeResults := fun _ => .transportError }
      "k" ⟨[⟨"k", "rt", "at"⟩], []⟩).2.trace = 0 ∧
    checkIfAccessTokenIsExpired .transportError = !(claimProbeValid .transportError) :=
  c6_cached_token_valid _ [⟨"k", "rt", "at"⟩] "k" ⟨"k", "rt", "at"⟩
    ⟨200, true, true, "", ""⟩ .transportError rfl (by decide) rfl rfl

/-- C9 — when any of the five static account secrets is absent, both
`FetchAccessTokenFromRequestToken` and the login flow return the
configuration error with the state untouched: no network step (no trace
event) has happened. -/
theorem c9_missing_secrets (env : Env) (apiKey requestToken : String) (s : TMState)
    (cfg : KiteConfig)
    (hload : env.cfgLoad = some cfg)
    (hmiss : cfg.apiKey = "" ∨ cfg.apiSecret = "" ∨ cfg.userID = "" ∨
             cfg.password = "" ∨ cfg.totpToken = "") :
    FetchAccessTokenFromRequestToken env requestToken s = (.error .configNotConfigured, s) ∧
    LoginAndStoreTokenForAPIKey env apiKey s = (.error .configNotConfigured, s) := by
  have hm : cfg.credsMissing = true := by
    rcases hmiss with h | h | h | h | h <;> simp [KiteConfig.credsMissing, h]
  constructor
  · simp [FetchAccessTokenFromRequestToken, hload, hm]
  · simp [LoginAndStoreTokenForAPIKey, hload, hm]

/-- Trace/oracle facts about one exchange round trip: the auth table is
untouched, at most one `exchange` event is appended, and an `ok` result means
the oracle answered a success response with that token. -/
theorem fetch_spec (env : Env) (rt : String) (s : TMState) :
    (FetchAccessTokenFromRequestToken env rt s).2.db = s.db ∧
    ((FetchAccessTokenFromRequestToken env rt s).2.trace = s.trace ∨
     (FetchAccessTokenFromRequestToken env rt s).2.trace = s.trace ++ [Event.exchange rt]) ∧
    (∀ tok s1, FetchAccessTokenFromRequestToken env rt s = (.ok tok, s1) →
      env.exchangeResults (countExchange s.trace) = .response "success" tok) := by
  cases hc : env.cfgLoad with
  | none => simp [FetchAccessTokenFromRequestToken, hc]
  | some cfg =>
      cases hm : cfg.credsMissing with
      | true => simp [FetchAccessTokenFromRequestToken, hc, hm]
      | false =>
          cases hx : env.exchangeResults (countExchange s.trace) with
          | transportError => simp [FetchAccessTokenFromRequestToken, hc, hm, hx]
          | readError => simp [FetchAccessTokenFromRequestToken, hc, hm, hx]
          | parseError => simp [FetchAccessTokenFromRequestToken, hc, hm, hx]
          | response status accessToken =>
              cases hst : (status == "success") with
              | true =>
                  have hs : status = "success" := by simpa using hst
                  refine ⟨by simp [FetchAccessTokenFromRequestToken, hc, hm, hx, hst],
                    Or.inr (by simp [FetchAccessTokenFromRequestToken, hc, hm, hx, hst]), ?_⟩
                  intro tok s1 h
                  simp [FetchAccessTokenFromRequestToken, hc, hm, hx, hst] at h
                  rw [hs, h.1]
              | false => simp [FetchAccessTokenFromRequestToken, hc, hm, hx, hst]

/-- A login-flow run either fails on configuration with the state untouched,
or succeeds having appended exactly one `login` event. -/
theorem login_spec (env : Env) (apiKey : String) (s : TMState) :
    (∃ e, LoginAndStoreTokenForAPIKey env apiKey s = (.error e, s)) ∨
    ((LoginAndStoreTokenForAPIKey env apiKey s).1 = .ok () ∧
     (LoginAndStoreTokenForAPIKey env apiKey s).2.trace = s.trace ++ [Event.login]) := by
  cases hc : env.cfgLoad with
  | none => exact Or.inl ⟨.configLoadFailed, by simp [LoginAndStoreTokenForAPIKey, hc]⟩
  | some cfg =>
      cases hm : cfg.credsMissing with
      | true =>
          exact Or.inl ⟨.configNotConfigured, by simp [LoginAndStoreTokenForAPIKey, hc, hm]⟩
      | false =>
          refine Or.inr ?_
          cases hl : env.loginResults (countLogin s.trace) with
          | none => simp [LoginAndStoreTokenForAPIKey, hc, hm, hl]
          | some tok => simp [LoginAndStoreTokenForAPIKey, hc, hm, hl]

/-- When the config is loaded and complete, a login-flow run succeeds and
leaves exactly the state `LoginAndStoreToken` builds: the request token the
auto-login minted is stored, a failed auto-login stores nothing. -/
theorem login_cfg_ok (env : Env) (cfg : KiteConfig) (apiKey : String) (s : TMState)
    (hload : env.cfgLoad = some cfg) (hok : cfg.credsMissing = false) :
    LoginAndStoreTokenForAPIKey env apiKey s =
      (.ok (), { db := match env.loginResults (countLogin s.trace) with
                       | some tok => StoreRequestToken s.db apiKey tok
                       | none => s.db,
                 trace := s.trace ++ [Event.login] }) := by
  cases hl : env.loginResults (countLogin s.trace) with
  | none => simp [LoginAndStoreTokenForAPIKey, hload, hok, hl]
  | some tok => simp [LoginAndStoreTokenForAPIKey, hload, hok, hl]

/-- The retry loop with `n + 1` attempts available appends at most `n + 1`
exchange events and at most `n` login events, a login-flow run separates any
two consecutive exchange attempts, and if no exchange round trip ever
answers success then the loop surfaces an error. -/
theorem retryLoop_bound (env : Env) (apiKey : String) :
    ∀ n rt s, ∃ t,
      (retryLoop env apiKey n rt s).2.trace = s.trace ++ t ∧
      countExchange t ≤ n + 1 ∧
      countLogin t ≤ n ∧
      retriesPrecededByLogin false t = true ∧
      ((∀ k tok, env.exchangeResults k ≠ ExchangeOutcome.response "success" tok) →
        resultIsError (retryLoop env apiKey n rt s).1 = true) := by
  intro n
  induction n with
  | zero =>
      intro rt s
      obtain ⟨-, htr, hok⟩ := fetch_spec env rt s
      rcases hF : FetchAccessTokenFromRequestToken env rt s with ⟨r, s1⟩
      rw [hF] at htr hok
      simp only at htr
      cases r with
      | ok tok =>
          rcases htr with h | h
          · refine ⟨[], ?_, by simp [countExchange], by simp [countLogin], rfl, ?_⟩
            · simp only [retryLoop, hF]
              simpa using h
            · intro hfail
              exact absurd (hok tok s1 rfl) (hfail _ tok)
          · refine ⟨[Event.exchange rt], ?_, by simp [countExchange],
              by simp [countLogin], rfl, ?_⟩
            · simp only [retryLoop, hF]
              exact h
            · intro hfail
              exact absurd (hok tok s1 rfl) (hfail _ tok)
      | error e =>
          rcases htr with h | h
          · refine ⟨[], ?_, by simp [countExchange], by simp [countLogin], rfl, ?_⟩
            · simp only [retryLoop, hF]
              simpa using h
            · intro _
              simp only [retryLoop, hF]
              rfl
          · refine ⟨[Event.exchange rt], ?_, by simp [countExchange],
              by simp [countLogin], rfl, ?_⟩
            · simp only [retryLoop, hF]
              exact h
            · intro _
              simp only [retryLoop, hF]
              rfl
  | succ n ih =>
      intro rt s
      obtain ⟨-, htr, hok⟩ := fetch_spec env rt s
      rcases hF : FetchAccessTokenFromRequestToken env rt s with ⟨r, s1⟩
      rw [hF] at htr hok
      simp only at htr
      cases r with
      | ok tok =>
          rcases htr with h | h
          · refine ⟨[], ?_, by simp [countExchange], by simp [countLogin], rfl, ?_⟩
            · simp only [retryLoop, hF]
              simpa using h
            · intro hfail
              exact absurd (hok tok s1 rfl) (hfail _ tok)
          · refine ⟨[Event.exchange rt], ?_, by simp [countExchange],
              by simp [countLogin], rfl, ?_⟩
            · simp only [retryLoop, hF]
              exact h
            · intro hfail
              exact absurd (hok tok s1 rfl) (hfail _ tok)
      | error e =>
          rcases login_spec env apiKey s1 with ⟨e2, hL⟩ | ⟨hLok, hLtr⟩
          · rcases htr with h | h
            · refine ⟨[], ?_, by simp [countExchange], by simp [countLogin], rfl, ?_⟩
              · simp only [retryLoop, hF, hL]
                simpa using h
              · intro _
                simp only [retryLoop, hF, hL]
                rfl
            · refine ⟨[Event.exchange rt], ?_, by simp [countExchange],
                by simp [countLogin], rfl, ?_⟩
              · simp only [retryLoop, hF, hL]
                exact h
              · intro _
                simp only [retryLoop, hF, hL]
                rfl
          · rcases hL : LoginAndStoreTokenForAPIKey env apiKey s1 with ⟨lr, s2⟩
            rw [hL] at hLok hLtr
            simp only at hLok hLtr
            subst hLok
            cases hG : GetAuthByAPIKey s2.db apiKey with
            | none =>
                rcases htr with h | h
                · refine ⟨[Event.login], ?_, by simp [countExchange],
                    by simp [countLogin], rfl, ?_⟩
                  · simp only [retryLoop, hF, hL, hG]
                    rw [hLtr, show s1.trace = s.trace from by simpa using h]
                  · intro _
                    simp only [retryLoop, hF, hL, hG]
                    rfl
                · refine ⟨[Event.exchange rt, Event.login], ?_, by simp [countExchange],
                    by simp [countLogin], rfl, ?_⟩
                  · simp only [retryLoop, hF, hL, hG]
                    rw [hLtr, h]
                    simp
                  · intro _
                    simp only [retryLoop, hF, hL, hG]
                    rfl
            | some auth =>
                cases hrt : (auth.requestToken == "") with
                | true =>
                    rcases htr with h | h
                    · refine ⟨[Event.login], ?_, by simp [countExchange],
                        by simp [countLogin], rfl, ?_⟩
                      · simp only [retryLoop, hF, hL, hG, hrt, if_true]
                        rw [hLtr, show s1.trace = s.trace from by simpa using h]
                      · intro _
                        simp only [retryLoop, hF, hL, hG, hrt, if_true]
                        rfl
                    · refine ⟨[Event.exchange rt, Event.login], ?_, by simp [countExchange],
                        by simp [countLogin], rfl, ?_⟩
                      · simp only [retryLoop, hF, hL, hG, hrt, if_true]
                        rw [hLtr, h]
                        simp
                      · intro _
                        simp only [retryLoop, hF, hL, hG, hrt, if_true]
                        rfl
                | false =>
                    obtain ⟨t2, ht2, he2, hl2, hr2, herr2⟩ := ih auth.requestToken s2
                    have hred : retryLoop env apiKey (n + 1) rt s =
                        retryLoop env apiKey n auth.requestToken s2 := by
                      rw [retryLoop, hF]
                      simp [hL, hG, hrt]
                    rcases htr with h | h
                    · refine ⟨[Event.login] ++ t2, ?_, ?_, ?_, ?_, ?_⟩
                      · rw [hred, ht2, hLtr, show s1.trace = s.trace from by simpa using h,
                          List.append_assoc]
                      · have hx2 := he2
                        simp only [countExchange] at hx2
                        simp [countExchange, List.countP_append]
                        omega
                      · have hx2 := hl2
                        simp only [countLogin] at hx2
                        simp [countLogin, List.countP_append]
                        omega
                      · simpa [retriesPrecededByLogin] using hr2
                      · intro hfail
                        rw [hred]
                        exact herr2 hfail
                    · refine ⟨[Event.exchange rt, Event.login] ++ t2, ?_, ?_, ?_, ?_, ?_⟩
                      · rw [hred, ht2, hLtr, h]
                        simp
                      · have hx2 := he2
                        simp only [countExchange] at hx2
                        simp [countExchange, List.countP_append]
                        omega
                      · have hx2 := hl2
                        simp only [countLogin] at hx2
                        simp [countLogin, List.countP_append]
                        omega
                      · simpa [retriesPrecededByLogin] using hr2
                      · intro hfail
                        rw [hred]
                        exact herr2 hfail

/-- `exchangeAndPersist` inherits the retry loop's trace and error bounds:
persisting the token touches only the auth table. -/
theorem exchangeAndPersist_spec (env : Env) (apiKey rt : String) (s : TMState) :
    ∃ t, (exchangeAndPersist env apiKey rt s).2.trace = s.trace ++ t ∧
      countExchange t ≤ 3 ∧
      countLogin t ≤ 2 ∧
      retriesPrecededByLogin false t = true ∧
      ((∀ k tok, env.exchangeResults k ≠ ExchangeOutcome.response "success" tok) →
        resultIsError (exchangeAndPersist env apiKey rt s).1 = true) := by
  obtain ⟨t, ht, he, hl, hr, herr⟩ := retryLoop_bound env apiKey 2 rt s
  rcases hR : retryLoop env apiKey 2 rt s with ⟨r, s1⟩
  rw [hR] at ht herr
  simp only at ht herr
  cases r with
  | error e =>
      refine ⟨t, ?_, he, hl, hr, ?_⟩
      · simp only [exchangeAndPersist, getAccessTokenFromRequestTokenWithRetry, hR]
        exact ht
      · intro _
        simp only [exchangeAndPersist, getAccessTokenFromRequestTokenWithRetry, hR]
        rfl
  | ok tok =>
      cases hU : UpdateAccessToken s1.db apiKey tok with
      | error e2 =>
          refine ⟨t, ?_, he, hl, hr, ?_⟩
          · simp only [exchangeAndPersist, getAccessTokenFromRequestTokenWithRetry, hR, hU]
            exact ht
          · intro hfail
            exact absurd (herr hfail) (by simp [resultIsError])
      | ok db1 =>
          refine ⟨t, ?_, he, hl, hr, ?_⟩
          · simp only [exchangeAndPersist, getAccessTokenFromRequestTokenWithRetry, hR, hU]
            exact ht
          · intro hfail
            exact absurd (herr hfail) (by simp [resultIsError])

/-- The tail of `GetValidAccessToken` stays within three exchange attempts
and three login-flow runs, each retry is preceded by a login-flow run, and if
no exchange ever succeeds it surfaces an error. -/
theorem rest_spec (env : Env) (apiKey : String) (auth0 : Option KiteAuth) (s : TMState) :
    ∃ t, (getValidAccessTokenRest env apiKey auth0 s).2.trace = s.trace ++ t ∧
      countExchange t ≤ 3 ∧
      countLogin t ≤ 3 ∧
      retriesPrecededByLogin false t = true ∧
      ((∀ k tok, env.exchangeResults k ≠ ExchangeOutcome.response "success" tok) →
        resultIsError (getValidAccessTokenRest env apiKey auth0 s).1 = true) := by
  have hstep : ∀ a : KiteAuth, (a.requestToken == "") = false →
      getValidAccessTokenRest env apiKey (some a) s =
        exchangeAndPersist env apiKey a.requestToken s := by
    intro a h
    simp [getValidAccessTokenRest, h]
  have hnone : ∀ a0 : Option KiteAuth,
      (a0 = none ∨ ∃ a, a0 = some a ∧ (a.requestToken == "") = true) →
      ∃ t, (getValidAccessTokenRest env apiKey a0 s).2.trace = s.trace ++ t ∧
        countExchange t ≤ 3 ∧ countLogin t ≤ 3 ∧
        retriesPrecededByLogin false t = true ∧
        ((∀ k tok, env.exchangeResults k ≠ ExchangeOutcome.response "success" tok) →
          resultIsError (getValidAccessTokenRest env apiKey a0 s).1 = true) := by
    intro a0 ha0
    have hred : getValidAccessTokenRest env apiKey a0 s =
        (match LoginAndStoreTokenForAPIKey env apiKey s with
         | (.error e, s1) => (.error (.loginAndStoreFailed e), s1)
         | (.ok _, s1) =>
             match GetAuthByAPIKey s1.db apiKey with
             | none => (.error .unexpectedNoRequestToken, s1)
             | some a =>
                 if a.requestToken == "" then (.error .unexpectedNoRequestToken, s1)
                 else exchangeAndPersist env apiKey a.requestToken s1) := by
      rcases ha0 with h | ⟨a, h, hra⟩ <;> subst h <;> simp [getValidAccessTokenRest, *]
    rcases login_spec env apiKey s with ⟨e2, hL⟩ | ⟨hLok, hLtr⟩
    · have hfin : getValidAccessTokenRest env apiKey a0 s =
          (.error (.loginAndStoreFailed e2), s) := by
        rw [hred, hL]
      rw [hfin]
      exact ⟨[], by simp, by simp [countExchange], by simp [countLogin], rfl,
        fun _ => rfl⟩
    · rcases hL : LoginAndStoreTokenForAPIKey env apiKey s with ⟨lr, s1⟩
      rw [hL] at hLok hLtr
      simp only at hLok hLtr
      subst hLok
      cases hG : GetAuthByAPIKey s1.db apiKey with
      | none =>
          have hfin : getValidAccessTokenRest env apiKey a0 s =
              (.error .unexpectedNoRequestToken, s1) := by
            rw [hred, hL]
            simp [hG]
          rw [hfin]
          exact ⟨[Event.login], by simpa using hLtr, by simp [countExchange],
            by simp [countLogin], rfl, fun _ => rfl⟩
      | some a =>
          cases hra : (a.requestToken == "") with
          | true =>
              have hfin : getValidAccessTokenRest env apiKey a0 s =
                  (.error .unexpectedNoRequestToken, s1) := by
                rw [hred, hL]
                simp [hG, hra]
              rw [hfin]
              exact ⟨[Event.login], by simpa using hLtr, by simp [countExchange],
                by simp [countLogin], rfl, fun _ => rfl⟩
          | false =>
              have hfin : getValidAccessTokenRest env apiKey a0 s =
                  exchangeAndPersist env apiKey a.requestToken s1 := by
                rw [hred, hL]
                simp [hG, hra]
              rw [hfin]
              obtain ⟨t2, ht2, he2, hl2, hr2, herr2⟩ :=
                exchangeAndPersist_spec env apiKey a.requestToken s1
              refine ⟨[Event.login] ++ t2, ?_, ?_, ?_, ?_, herr2⟩
              · rw [ht2, hLtr, List.append_assoc]
              · have hx := he2
                simp only [countExchange] at hx
                simp [countExchange, List.countP_append]
                omega
              · have hx := hl2
                simp only [countLogin] at hx
                simp [countLogin, List.countP_append]
                omega
              · simpa [retriesPrecededByLogin] using hr2
  cases auth0 with
  | none => exact hnone none (Or.inl rfl)
  | some a =>
      cases hra : (a.requestToken == "") with
      | true => exact hnone (some a) (Or.inr ⟨a, rfl, hra⟩)
      | false =>
          rw [hstep a hra]
          obtain ⟨t, ht, he, hl, hr, herr⟩ := exchangeAndPersist_spec env apiKey a.requestToken s
          exact ⟨t, ht, he, by omega, hr, herr⟩

/-- C7 — when the cached access token is absent or the probe signals expiry,
one `GetValidAccessToken` call performs at most 3 exchange attempts, runs the
login emulator at most 3 times, a login-flow run precedes every retry, and —
when every exchange round trip fails — the call surfaces an error. -/
theorem c7_bounded_retry (env : Env) (apiKey : String) (db : AuthDB)
    (hcache : match GetAuthByAPIKey db apiKey with
              | none => True
              | some a => a.accessToken = "" ∨
                          checkIfAccessTokenIsExpired env.probeResult = true)
    (hfail : ∀ k tok, env.exchangeResults k ≠ ExchangeOutcome.response "success" tok) :
    countExchange (GetValidAccessToken env apiKey ⟨db, []⟩).2.trace ≤ 3 ∧
    countLogin (GetValidAccessToken env apiKey ⟨db, []⟩).2.trace ≤ 3 ∧
    retriesPrecededByLogin false (GetValidAccessToken env apiKey ⟨db, []⟩).2.trace = true ∧
    resultIsError (GetValidAccessToken env apiKey ⟨db, []⟩).1 = true := by
  cases hA : GetAuthByAPIKey db apiKey with
  | none =>
      have hfin : GetValidAccessToken env apiKey ⟨db, []⟩ =
          getValidAccessTokenRest env apiKey none ⟨db, []⟩ := by
        simp [GetValidAccessToken, hA]
      obtain ⟨t, ht, he, hl, hr, herr⟩ := rest_spec env apiKey none ⟨db, []⟩
      have ht' : (getValidAccessTokenRest env apiKey none ⟨db, []⟩).2.trace = t := by
        simpa using ht
      rw [hfin, ht']
      exact ⟨he, hl, hr, herr hfail⟩
  | some a =>
      rw [hA] at hcache
      cases hat : (a.accessToken == "") with
      | true =>
          have hfin : GetValidAccessToken env apiKey ⟨db, []⟩ =
              getValidAccessTokenRest env apiKey (some a) ⟨db, []⟩ := by
            simp [GetValidAccessToken, hA, hat]
          obtain ⟨t, ht, he, hl, hr, herr⟩ := rest_spec env apiKey (some a) ⟨db, []⟩
          have ht' : (getValidAccessTokenRest env apiKey (some a) ⟨db, []⟩).2.trace = t := by
            simpa using ht
          rw [hfin, ht']
          exact ⟨he, hl, hr, herr hfail⟩
      | false =>
          have hexp : checkIfAccessTokenIsExpired env.probeResult = true := by
            rcases hcache with h | h
            · exact absurd h (by simpa using hat)
            · exact h
          have hfin : GetValidAccessToken env apiKey ⟨db, []⟩ =
              getValidAccessTokenRest env apiKey (some a) ⟨db, [Event.probe]⟩ := by
            simp [GetValidAccessToken, hA, hat, hexp]
          obtain ⟨t, ht, he, hl, hr, herr⟩ :=
            rest_spec env apiKey (some a) ⟨db, [Event.probe]⟩
          have ht' : (getValidAccessTokenRest env apiKey (some a) ⟨db, [Event.probe]⟩).2.trace =
              Event.probe :: t := by
            simpa using ht
          rw [hfin, ht']
          refine ⟨?_, ?_, ?_, herr hfail⟩
          · simpa [countExchange, List.countP_cons] using he
          · simpa [countLogin, List.countP_cons] using hl
          · simpa [retriesPrecededByLogin] using hr

theorem c7_bounded_retry_witness :
    countExchange (GetValidAccessToken
      { cfgLoad := some ⟨"k", "s", "u", "p", "t"⟩, probeResult := .transportError,
        loginResults := fun _ => none, exchangeResults := fun _ => .transportError }
      "k" ⟨[⟨"k", "rt0", ""⟩], []⟩).2.trace ≤ 3 ∧
    countLogin (GetValidAccessToken
      { cfgLoad := some ⟨"k", "s", "u", "p", "t"⟩, probeResult := .transportError,
        loginResults := fun _ => none, exchangeResults := fun _ => .transportError }
      "k" ⟨[⟨"k", "rt0", ""⟩], []⟩).2.trace ≤ 3 ∧
    retriesPrecededByLogin false (GetValidAccessToken
      { cfgLoad := some ⟨"k", "s", "u", "p", "t"⟩, probeResult := .transportError,
        loginResults := fun _ => none, exchangeResults := fun _ => .transportError }
      "k" ⟨[⟨"k", "rt0", ""⟩], []⟩).2.trace = true ∧
    resultIsError (GetValidAccessToken
      { cfgLoad := some ⟨"k", "s", "u", "p", "t"⟩, probeResult := .transportError,
        loginResults := fun _ => none, exchangeResults := fun _ => .transportError }
      "k" ⟨[⟨"k", "rt0", ""⟩], []⟩).1 = true :=
  c7_bounded_retry _ "k" [⟨"k", "rt0", ""⟩] (Or.inl rfl)
    (fun k tok h => ExchangeOutcome.noConfusion h)

theorem find_updateFirstAuth (apiKey : String) (f : KiteAuth → KiteAuth)
    (hf : ∀ a, (f a).apiKey = a.apiKey) :
    ∀ db : AuthDB, GetAuthByAPIKey (updateFirstAuth db apiKey f) apiKey =
      (GetAuthByAPIKey db apiKey).map f := by
  intro db
  induction db with
  | nil => rfl
  | cons a rest ih =>
      simp only [GetAuthByAPIKey] at *
      cases hx : (a.apiKey == apiKey) with
      | true =>
          have hfx : ((f a).apiKey == apiKey) = true := by rw [hf a]; exact hx
          simp [updateFirstAuth, List.find?_cons, hx, hfx]
      | false => simp [updateFirstAuth, List.find?_cons, hx, ih]

/-- After `StoreRequestToken`, the row read back for the key carries exactly
the token just stored. -/
theorem getAuth_storeRequestToken (db : AuthDB) (apiKey tok : String) :
    (GetAuthByAPIKey (StoreRequestToken db apiKey tok) apiKey).map
      (fun a => a.requestToken) = some tok := by
  unfold StoreRequestToken
  cases h : GetAuthByAPIKey db apiKey with
  | none =>
      have h' : List.find? (fun a => a.apiKey == apiKey) db = none := h
      simp only
      rw [GetAuthByAPIKey, find?_append_of_none _ _ _ h']
      simp [List.find?_cons]
  | some a0 =>
      simp only
      rw [find_updateFirstAuth apiKey (fun a => { a with requestToken := tok })
        (fun a => rfl) db, h]
      simp

/-- Persisting the access token does not touch the trace. -/
theorem exchangeAndPersist_trace (env : Env) (apiKey rt : String) (s : TMState) :
    (exchangeAndPersist env apiKey rt s).2.trace = (retryLoop env apiKey 2 rt s).2.trace := by
  rcases hR : retryLoop env apiKey 2 rt s with ⟨r, s1⟩
  cases r with
  | error e => simp [exchangeAndPersist, getAccessTokenFromRequestTokenWithRetry, hR]
  | ok tok =>
      cases hU : UpdateAccessToken s1.db apiKey tok with
      | error e2 =>
          simp [exchangeAndPersist, getAccessTokenFromRequestTokenWithRetry, hR, hU]
      | ok db1 =>
          simp [exchangeAndPersist, getAccessTokenFromRequestTokenWithRetry, hR, hU]

/-- With a loaded, complete config, one exchange round trip always appends
its event; it succeeds or fails according to the oracle. -/
theorem fetch_cfg_cases (env : Env) (cfg : KiteConfig) (rt : String) (s : TMState)
    (hload : env.cfgLoad = some cfg) (hok : cfg.credsMissing = false) :
    (∃ tok, FetchAccessTokenFromRequestToken env rt s =
        (.ok tok, { s with trace := s.trace ++ [Event.exchange rt] })) ∨
    (∃ e, FetchAccessTokenFromRequestToken env rt s =
        (.error e, { s with trace := s.trace ++ [Event.exchange rt] })) := by
  cases hx : env.exchangeResults (countExchange s.trace) with
  | transportError =>
      exact Or.inr ⟨.exchangeTransport,
        by simp [FetchAccessTokenFromRequestToken, hload, hok, hx]⟩
  | readError =>
      exact Or.inr ⟨.exchangeRead,
        by simp [FetchAccessTokenFromRequestToken, hload, hok, hx]⟩
  | parseError =>
      exact Or.inr ⟨.exchangeParse,
        by simp [FetchAccessTokenFromRequestToken, hload, hok, hx]⟩
  | response status accessToken =>
      cases hst : (status == "success") with
      | true =>
          exact Or.inl ⟨accessToken,
            by simp [FetchAccessTokenFromRequestToken, hload, hok, hx, hst]⟩
      | false =>
          exact Or.inr ⟨.exchangeNonSuccess,
            by simp [FetchAccessTokenFromRequestToken, hload, hok, hx, hst]⟩

/-- When every auto-login run succeeds (minting token `f i` on its `i`-th
run), the exchange attempts of the retry loop use the incoming request token
and then exactly the freshly minted tokens, in order. -/
theorem retryLoop_fresh (env : Env) (apiKey : String) (cfg : KiteConfig) (f : Nat → String)
    (hload : env.cfgLoad = some cfg) (hok : cfg.credsMissing = false)
    (hlogin : ∀ i, env.loginResults i = some (f i)) (hne : ∀ i, f i ≠ "") :
    ∀ n rt s, ∃ t,
      (retryLoop env apiKey n rt s).2.trace = s.trace ++ t ∧
      exchangeTokens t <+:
        rt :: (List.range n).map (fun j => f (countLogin s.trace + j)) := by
  intro n
  induction n with
  | zero =>
      intro rt s
      rcases fetch_cfg_cases env cfg rt s hload hok with ⟨tok, hF⟩ | ⟨e, hF⟩
      · exact ⟨[Event.exchange rt], by simp [retryLoop, hF], by simp [exchangeTokens]⟩
      · exact ⟨[Event.exchange rt], by simp [retryLoop, hF], by simp [exchangeTokens]⟩
  | succ n ih =>
      intro rt s
      rcases fetch_cfg_cases env cfg rt s hload hok with ⟨tok, hF⟩ | ⟨e, hF⟩
      · refine ⟨[Event.exchange rt], by simp [retryLoop, hF], ?_⟩
        simp [exchangeTokens, List.cons_prefix_cons]
      · have hcnt : countLogin (s.trace ++ [Event.exchange rt]) = countLogin s.trace := by
          simp [countLogin, List.countP_append]
        have hL : LoginAndStoreTokenForAPIKey env apiKey
            { db := s.db, trace := s.trace ++ [Event.exchange rt] } =
            (.ok (), { db := StoreRequestToken s.db apiKey (f (countLogin s.trace)),
                       trace := (s.trace ++ [Event.exchange rt]) ++ [Event.login] }) := by
          rw [login_cfg_ok env cfg apiKey _ hload hok]
          simp [hcnt, hlogin (countLogin s.trace)]
        obtain ⟨a, hGa, hart⟩ := Option.map_eq_some'.mp
          (getAuth_storeRequestToken s.db apiKey (f (countLogin s.trace)))
        have hart' : (a.requestToken == "") = false := by
          rw [hart]
          exact beq_eq_false_iff_ne.mpr (hne _)
        have hred : retryLoop env apiKey (n + 1) rt s =
            retryLoop env apiKey n a.requestToken
              { db := StoreRequestToken s.db apiKey (f (countLogin s.trace)),
                trace := (s.trace ++ [Event.exchange rt]) ++ [Event.login] } := by
          rw [retryLoop, hF]
          simp only [hL, hGa, hart']
          simp
        obtain ⟨t2, ht2, hp2⟩ := ih a.requestToken
          { db := StoreRequestToken s.db apiKey (f (countLogin s.trace)),
            trace := (s.trace ++ [Event.exchange rt]) ++ [Event.login] }
        have hcnt2 : countLogin (s.trace ++ [Event.exchange rt, Event.login]) =
            countLogin s.trace + 1 := by
          simp [countLogin, List.countP_append]
        refine ⟨Event.exchange rt :: Event.login :: t2, ?_, ?_⟩
        · rw [hred, ht2]
          simp
        · have htok : exchangeTokens (Event.exchange rt :: Event.login :: t2) =
              rt :: exchangeTokens t2 := by
            simp [exchangeTokens]
          rw [htok]
          have hmap : (List.range (n + 1)).map (fun j => f (countLogin s.trace + j)) =
              f (countLogin s.trace) ::
                (List.range n).map (fun j => f (countLogin s.trace + 1 + j)) := by
            rw [List.range_succ_eq_map, List.map_cons, List.map_map]
            refine congrArg₂ _ (by rw [Nat.add_zero]) ?_
            apply List.map_congr_left
            intro k _
            simp only [Function.comp_apply]
            congr 1
            omega
          rw [hmap]
          rw [List.cons_prefix_cons]
          refine ⟨rfl, ?_⟩
          rw [← hart]
          simpa [hcnt2] using hp2

/-- C1 counterexample — with a stored request token "rt0", no cached access
token, every exchange failing and every auto-login failing (so the login flow
falls back to manual mode and returns success without storing), a single
`GetValidAccessToken` call performs three exchange attempts that all reuse
the request token "rt0" whose first exchange already failed, refuting the
claim that a failed request token is never passed to a subsequent attempt. -/
theorem c1_stale_token_counterexample :
    exchangeTokens (GetValidAccessToken
      { cfgLoad := some ⟨"k", "s", "u", "p", "t"⟩, probeResult := .transportError,
        loginResults := fun _ => none, exchangeResults := fun _ => .transportError }
      "k" ⟨[⟨"k", "rt0", ""⟩], []⟩).2.trace = ["rt0", "rt0", "rt0"] ∧
    (GetValidAccessToken
      { cfgLoad := some ⟨"k", "s", "u", "p", "t"⟩, probeResult := .transportError,
        loginResults := fun _ => none, exchangeResults := fun _ => .transportError }
      "k" ⟨[⟨"k", "rt0", ""⟩], []⟩).1 =
      .error (.retryFailed (.retriesExhausted .exchangeTransport)) := by
  constructor <;> rfl

/-- C1 (amended) — whenever an exchange attempt fails and another follows in
the same `GetValidAccessToken` call, the full login flow is re-run first, and
provided each such automatic login succeeds in minting (and storing) its
token `f i`, the sequence of request tokens used by the exchange attempts is
a prefix of the stored token followed by the freshly minted ones — so a
failed request token is then never passed to a later attempt. (When the
automatic login fails, the login flow returns success without storing and the
stale token is reused — the counterexample.) -/
theorem c1_fresh_token_amended (env : Env) (db : AuthDB) (apiKey : String) (a : KiteAuth)
    (cfg : KiteConfig) (f : Nat → String)
    (hload : env.cfgLoad = some cfg) (hok : cfg.credsMissing = false)
    (hlogin : ∀ i, env.loginResults i = some (f i)) (hne : ∀ i, f i ≠ "")
    (hauth : GetAuthByAPIKey db apiKey = some a)
    (hat : a.accessToken = "") (hrt : a.requestToken ≠ "") :
    exchangeTokens (GetValidAccessToken env apiKey ⟨db, []⟩).2.trace <+:
      [a.requestToken, f 0, f 1] := by
  have hat' : (a.accessToken == "") = true := by simp [hat]
  have hrt' : (a.requestToken == "") = false := beq_eq_false_iff_ne.mpr hrt
  have hfin : GetValidAccessToken env apiKey ⟨db, []⟩ =
      exchangeAndPersist env apiKey a.requestToken ⟨db, []⟩ := by
    simp [GetValidAccessToken, hauth, hat', getValidAccessTokenRest, hrt']
  rw [hfin, exchangeAndPersist_trace]
  obtain ⟨t, ht, hp⟩ :=
    retryLoop_fresh env apiKey cfg f hload hok hlogin hne 2 a.requestToken ⟨db, []⟩
  have ht' : (retryLoop env apiKey 2 a.requestToken ⟨db, []⟩).2.trace = t := by
    simpa using ht
  rw [ht']
  have hr2 : a.requestToken ::
      (List.range 2).map (fun j => f (countLogin (⟨db, []⟩ : TMState).trace + j)) =
      [a.requestToken, f 0, f 1] := by
    have : countLogin (⟨db, []⟩ : TMState).trace = 0 := rfl
    rw [this]
    simp [List.range_succ]
  rw [hr2] at hp
  exact hp

theorem c1_fresh_token_amended_witness :
    exchangeTokens (GetValidAccessToken
      { cfgLoad := some ⟨"k", "s", "u", "p", "t"⟩, probeResult := .transportError,
        loginResults := fun _ => some "ft", exchangeResults := fun _ => .transportError }
      "k" ⟨[⟨"k", "rt0", ""⟩], []⟩).2.trace <+: ["rt0", "ft", "ft"] :=
  c1_fresh_token_amended _ [⟨"k", "rt0", ""⟩] "k" ⟨"k", "rt0", ""⟩
    ⟨"k", "s", "u", "p", "t"⟩ (fun _ => "ft") rfl (by decide) (fun i => rfl)
    (fun i => show ("ft" : String) ≠ "" by decide) rfl rfl (by decide)

theorem c9_missing_secrets_witness :
    FetchAccessTokenFromRequestToken
      { cfgLoad := some ⟨"key", "sec", "uid", "", "totp"⟩, probeResult := .transportError,
        loginResults := fun _ => none, exchangeResults := fun _ => .transportError }
      "rt" ⟨[], []⟩ = (.error .configNotConfigured, ⟨[], []⟩) ∧
    LoginAndStoreTokenForAPIKey
      { cfgLoad := some ⟨"key", "sec", "uid", "", "totp"⟩, probeResult := .transportError,
        loginResults := fun _ => none, exchangeResults := fun _ => .transportError }
      "key" ⟨[], []⟩ = (.error .configNotConfigured, ⟨[], []⟩) :=
  c9_missing_secrets _ "key" "rt" ⟨[], []⟩ ⟨"key", "sec", "uid", "", "totp"⟩ rfl
    (Or.inr (Or.inr (Or.inr (Or.inl rfl))))

end Paisa.Kite
